import Mathlib

/-!
Formal model of the volume-group cleanup script (vg_cleanup.py).

The script enumerates Nutanix volume groups whose name starts with a
configured value, and for each matching group: inspects attached VMs,
optionally detaches them (with the force flag), detaches the group's disks,
and deletes the group, accumulating success and failure counts.

The external control plane is modelled as an oracle assigning to every
executed acli action a result (stdout text, a timeout, or a failure).
Every function of the script is translated to a pure Lean function that
returns its Python value together with the list of actions it actually
executed (dry-run suppressed actions are not executed, hence not traced).
-/

/-- Result of executing one external acli command, as observed by
run_acli_command: output s models a zero-exit run with stdout s; timeout
models subprocess.TimeoutExpired (the Python function then returns the
string TIMEOUT); failure models a non-zero exit code or a raised exception
(the Python function then returns None). -/
inductive CmdResult where
  | output (s : String)
  | timeout
  | failure
deriving DecidableEq

/-- The acli command strings built by the script, one constructor per
format string appearing in the source:
vg.list, vg.get NAME, vg.detach_from_vm NAME VM, vg.disk_delete NAME IDX,
vg.delete NAME. `render` recovers the exact command string. -/
inductive AcliCmd where
  | vgList
  | vgGet (vg : String)
  | vgDetachFromVm (vg vm : String)
  | vgDiskDelete (vg disk : String)
  | vgDelete (vg : String)
deriving DecidableEq

/-- The exact command text each call site passes to run_acli_command. -/
def AcliCmd.render : AcliCmd → String
  | .vgList => "vg.list"
  | .vgGet vg => "vg.get " ++ vg
  | .vgDetachFromVm vg vm => "vg.detach_from_vm " ++ vg ++ " " ++ vm
  | .vgDiskDelete vg d => "vg.disk_delete " ++ vg ++ " " ++ d
  | .vgDelete vg => "vg.delete " ++ vg

/-- Commands that mutate the control plane (detach a VM, delete a disk,
delete a volume group); vg.list and vg.get are read-only. -/
def AcliCmd.isMutating : AcliCmd → Bool
  | .vgDetachFromVm _ _ => true
  | .vgDiskDelete _ _ => true
  | .vgDelete _ => true
  | _ => false

/-- Sub-resource detach or volume-group delete commands (the actions the
state machine may only reach after the consumer gate). -/
def AcliCmd.isSubOrDelete : AcliCmd → Bool
  | .vgDiskDelete _ _ => true
  | .vgDelete _ => true
  | _ => false

/-- The volume group a command addresses, if any. -/
def AcliCmd.targets : AcliCmd → Option String
  | .vgList => none
  | .vgGet vg => some vg
  | .vgDetachFromVm vg _ => some vg
  | .vgDiskDelete vg _ => some vg
  | .vgDelete vg => some vg

/-- One actually-executed subprocess invocation: the command text passed to
run_acli_command together with the timeout and confirm arguments in force
for that call. -/
structure Act where
  cmd : AcliCmd
  tmo : Nat
  confirm : Bool
deriving DecidableEq

/-- The control plane as a deterministic oracle: what executing a given
action returns. -/
abbrev Env := Act → CmdResult

/-- Model of run_acli_command: under dry_run the command is only logged and
the fixed placeholder string is returned, with no execution; otherwise the
subprocess runs and None / TIMEOUT / stdout is returned (here as
Option String), and the executed action is recorded in the trace.
The shell text actually spawned is, per the source,
"echo yes | acli " ++ cmd.render when confirm is set, "acli " ++ cmd.render
otherwise. -/
def run_acli_command (env : Env) (cmd : AcliCmd) (dry_run : Bool)
    (tmo : Nat) (confirm : Bool) : Option String × List Act :=
  if dry_run then (some "[DRY RUN] Command not executed", [])
  else
    let a : Act := ⟨cmd, tmo, confirm⟩
    (match env a with
      | CmdResult.output s => some s
      | CmdResult.timeout => some "TIMEOUT"
      | CmdResult.failure => none,
     [a])

/- ## Character-level text utilities (modelling the Python string and re
operations used by the script) -/

/-- Opening brace character (written by code point to keep braces out of
string literals). -/
def obr : Char := Char.ofNat 123

/-- Closing brace character. -/
def cbr : Char := Char.ofNat 125

/-- Double-quote character. -/
def dq : Char := Char.ofNat 34

/-- Length of the longest prefix of the list whose characters all satisfy p
(the extent a greedy starred character class consumes). -/
def runLen (p : Char → Bool) : List Char → Nat
  | [] => 0
  | c :: cs => if p c then runLen p cs + 1 else 0

/-- Greedy backtracking over the length consumed by a starred character
class: try the longest candidate first, shrinking until the continuation
succeeds. -/
def tryLengths (k : Nat → Option α) : Nat → Option α
  | 0 => k 0
  | n + 1 =>
    match k (n + 1) with
    | some r => some r
    | none => tryLengths k n

/-- Boolean prefix test on character lists (Python str.startswith). -/
def listIsPrefixOf : List Char → List Char → Bool
  | [], _ => true
  | _ :: _, [] => false
  | a :: as, b :: bs => a == b && listIsPrefixOf as bs

/-- Boolean substring test on character lists (the Python `in` operator on
strings). -/
def listContainsSub (pat : List Char) : List Char → Bool
  | [] => listIsPrefixOf pat []
  | c :: cs => listIsPrefixOf pat (c :: cs) || listContainsSub pat cs

/-- Python s.startswith(pre). -/
def pyStartswith (s pre : String) : Bool := listIsPrefixOf pre.toList s.toList

/-- Python pat in s. -/
def strContains (s pat : String) : Bool := listContainsSub pat.toList s.toList

/-- Python `not line.strip()`: the line is empty or all whitespace. -/
def lineBlank (line : String) : Bool := line.toList.all Char.isWhitespace

/-- Split on newline characters, dropping a trailing empty piece, as
Python str.splitlines does for newline-separated text. -/
def splitLinesAux : Nat → List Char → List (List Char)
  | _, [] => []
  | 0, cs => [cs]
  | fuel + 1, cs =>
    let line := cs.takeWhile (fun c => c != '\n')
    match cs.dropWhile (fun c => c != '\n') with
    | [] => [line]
    | _ :: rest => line :: splitLinesAux fuel rest

/-- Python out.splitlines() for newline-separated text. -/
def pySplitlines (s : String) : List String :=
  (splitLinesAux s.toList.length s.toList).map String.mk

/-- Python line.split() on character lists: split on whitespace runs,
producing no empty pieces. -/
def pySplitCharsAux : Nat → List Char → List (List Char)
  | _, [] => []
  | 0, cs => [cs]
  | fuel + 1, c :: cs =>
    if c.isWhitespace then pySplitCharsAux fuel cs
    else
      (c :: cs.takeWhile (fun x => !x.isWhitespace)) ::
        pySplitCharsAux fuel (cs.dropWhile (fun x => !x.isWhitespace))

/-- Python line.split() (no separator argument). -/
def pySplit (line : String) : List String :=
  (pySplitCharsAux line.toList.length line.toList).map String.mk

/- ## Response extraction (the re.search / re.findall calls of the script) -/

/-- Match of the regex
volume_group_attachment_type: "([^"]+)"
anchored at the head of the list: the literal field name, then a nonempty
run of non-quote characters (group 1), then a closing quote. The starred
class is deterministic here because the character after a shorter run could
only be another non-quote character. -/
def matchTypeAt (cs : List Char) : Option String :=
  let lit := "volume_group_attachment_type: ".toList ++ [dq]
  if listIsPrefixOf lit cs then
    let rest := cs.drop lit.length
    let u := runLen (fun c => c != dq) rest
    if u == 0 then none
    else
      match rest.drop u with
      | q :: _ => if q == dq then some (String.mk (rest.take u)) else none
      | [] => none
  else none

/-- re.search: first position, scanning left to right, where matchTypeAt
succeeds. -/
def searchTypeAux : List Char → Option String
  | [] => none
  | c :: cs =>
    match matchTypeAt (c :: cs) with
    | some r => some r
    | none => searchTypeAux cs

/-- The attachment-type extraction of get_vg_vms:
re.search(r'volume_group_attachment_type: "([^"]+)"', output), group 1. -/
def searchAttachmentType (out : String) : Option String :=
  searchTypeAux out.toList

/-- Tail of the attachment-record regex after the opening brace region:
vm_uuid:\s*"([^"]+)"[^\x7d]*\x7d  (braces written as code points).
Returns the captured uuid and the remaining input after the match. -/
def matchAttachTail (cs4 : List Char) : Option (String × List Char) :=
  let lit2 := "vm_uuid:".toList
  if listIsPrefixOf lit2 cs4 then
    let cs5 := cs4.drop lit2.length
    let cs6 := cs5.drop (runLen Char.isWhitespace cs5)
    match cs6 with
    | c :: cs7 =>
      if c == dq then
        let u := runLen (fun x => x != dq) cs7
        if u == 0 then none
        else
          match cs7.drop u with
          | q :: cs9 =>
            if q == dq then
              let t := runLen (fun x => x != cbr) cs9
              match cs9.drop t with
              | b :: cs11 =>
                if b == cbr then some (String.mk (cs7.take u), cs11) else none
              | [] => none
            else none
          | [] => none
      else none
    | [] => none
  else none

/-- Match of the attachment-record regex
attachment_list\s*\x7b[^\x7d]*vm_uuid:\s*"([^"]+)"[^\x7d]*\x7d
anchored at the head of the list, with the Python greedy-backtracking
semantics: the first brace-free starred class tries its longest extent
first and shrinks until the vm_uuid literal (and the rest of the pattern)
matches. Returns the captured uuid and the input remaining after the
match. -/
def matchAttachAt (cs : List Char) : Option (String × List Char) :=
  let lit := "attachment_list".toList
  if listIsPrefixOf lit cs then
    let cs1 := cs.drop lit.length
    let cs2 := cs1.drop (runLen Char.isWhitespace cs1)
    match cs2 with
    | b :: cs3 =>
      if b == obr then
        tryLengths (fun k => matchAttachTail (cs3.drop k))
          (runLen (fun x => x != cbr) cs3)
      else none
    | [] => none
  else none

/-- re.findall scan for the attachment-record regex: leftmost
non-overlapping matches, resuming after each match. -/
def findAllAttachAux : Nat → List Char → List String
  | _, [] => []
  | 0, _ => []
  | fuel + 1, c :: cs =>
    match matchAttachAt (c :: cs) with
    | some (cap, rest) => cap :: findAllAttachAux fuel rest
    | none => findAllAttachAux fuel cs

/-- The VM-uuid extraction of get_vg_vms:
re.findall(r'attachment_list\s*\x7b[^\x7d]*vm_uuid:\s*"([^"]+)"[^\x7d]*\x7d',
output, re.DOTALL) (DOTALL is inert: the pattern contains no dot). -/
def findAllVmUuids (out : String) : List String :=
  findAllAttachAux out.toList.length out.toList

/-- Match of the regex index: (\d+) anchored at the head of the list:
the literal, then a nonempty maximal digit run (group 1). Returns the
captured digits and the remaining input. -/
def matchIndexAt (cs : List Char) : Option (String × List Char) :=
  let lit := "index: ".toList
  if listIsPrefixOf lit cs then
    let rest := cs.drop lit.length
    let u := runLen Char.isDigit rest
    if u == 0 then none
    else some (String.mk (rest.take u), rest.drop u)
  else none

/-- re.findall scan for index: (\d+). -/
def findAllIndexAux : Nat → List Char → List String
  | _, [] => []
  | 0, _ => []
  | fuel + 1, c :: cs =>
    match matchIndexAt (c :: cs) with
    | some (cap, rest) => cap :: findAllIndexAux fuel rest
    | none => findAllIndexAux fuel cs

/-- The disk-index extraction of get_vg_disks:
re.findall(r'index: (\d+)', output). -/
def findAllIndexes (out : String) : List String :=
  findAllIndexAux out.toList.length out.toList

/- ## The script's functions -/

/-- Header-line filter of get_volume_groups: skip empty lines, lines
starting with a dash, and lines containing the substring Name. -/
def lineSkipped (line : String) : Bool :=
  lineBlank line || pyStartswith line "-" || strContains line "Name"

/-- The vg.list output parser of get_volume_groups: for every line not
skipped by the header filter, take the first whitespace-separated token. -/
def parseVgList (out : String) : List String :=
  ((pySplitlines out).filter (fun l => !lineSkipped l)).filterMap
    (fun l => (pySplit l).head?)

/-- get_volume_groups: run vg.list (default timeout 30, no confirm);
on failure return the empty list; under dry_run the placeholder output is
discarded and the empty list is returned; otherwise parse the output. -/
def get_volume_groups (env : Env) (dry_run : Bool) :
    List String × List Act :=
  let r := run_acli_command env AcliCmd.vgList dry_run 30 false
  match r.1 with
  | none => ([], r.2)
  | some out => if dry_run then ([], r.2) else (parseVgList out, r.2)

/-- get_vg_vms: run vg.get (default timeout 30, no confirm); on failure or
under dry_run return no VMs; otherwise, if the attachment-type field is
present and equals kNone return no VMs, else return every uuid matched by
the attachment-record regex, in order of appearance. -/
def get_vg_vms (env : Env) (vg_name : String) (dry_run : Bool) :
    List String × List Act :=
  let r := run_acli_command env (AcliCmd.vgGet vg_name) dry_run 30 false
  match r.1 with
  | none => ([], r.2)
  | some out =>
    if dry_run then ([], r.2)
    else
      match searchAttachmentType out with
      | some ty => if ty = "kNone" then ([], r.2) else (findAllVmUuids out, r.2)
      | none => (findAllVmUuids out, r.2)

/-- The loop of detach_vms: one vg.detach_from_vm per uuid, in list order,
timeout 20, confirm on. A None result (command failure) in live mode
clears the aggregate success flag; the loop never stops early, so every
uuid is attempted. A TIMEOUT result only logs a warning. -/
def detachVmsLoop (env : Env) (vg_name : String) (dry_run : Bool) :
    List String → Bool × List Act
  | [] => (true, [])
  | vm :: rest =>
    let r := run_acli_command env (AcliCmd.vgDetachFromVm vg_name vm)
      dry_run 20 true
    let tail := detachVmsLoop env vg_name dry_run rest
    (!(r.1.isNone && !dry_run) && tail.1, r.2 ++ tail.2)

/-- detach_vms: True immediately when there is nothing to detach, else the
sequential loop over the uuids. -/
def detach_vms (env : Env) (vg_name : String) (vm_uuids : List String)
    (dry_run : Bool) : Bool × List Act :=
  if vm_uuids = [] then (true, [])
  else detachVmsLoop env vg_name dry_run vm_uuids

/-- get_vg_disks: run vg.get (default timeout 30, no confirm); on failure
or under dry_run return no disks; otherwise return every digit string
matched by the index regex anywhere in the output, in order. -/
def get_vg_disks (env : Env) (vg_name : String) (dry_run : Bool) :
    List String × List Act :=
  let r := run_acli_command env (AcliCmd.vgGet vg_name) dry_run 30 false
  match r.1 with
  | none => ([], r.2)
  | some out => if dry_run then ([], r.2) else (findAllIndexes out, r.2)

/-- The loop of detach_disks: one vg.disk_delete per index, in list order,
timeout 20, confirm on; aggregate success flag as in detachVmsLoop. -/
def detachDisksLoop (env : Env) (vg_name : String) (dry_run : Bool) :
    List String → Bool × List Act
  | [] => (true, [])
  | d :: rest =>
    let r := run_acli_command env (AcliCmd.vgDiskDelete vg_name d)
      dry_run 20 true
    let tail := detachDisksLoop env vg_name dry_run rest
    (!(r.1.isNone && !dry_run) && tail.1, r.2 ++ tail.2)

/-- detach_disks: True immediately when there is nothing to detach, else
the sequential loop over the indexes. -/
def detach_disks (env : Env) (vg_name : String) (disk_indexes : List String)
    (dry_run : Bool) : Bool × List Act :=
  if disk_indexes = [] then (true, [])
  else detachDisksLoop env vg_name dry_run disk_indexes

/-- delete_vg: run vg.delete (timeout 20, confirm on); success is, as in
the source, result is not None, or result equals TIMEOUT (redundant, kept
as written), or dry_run. -/
def delete_vg (env : Env) (vg_name : String) (dry_run : Bool) :
    Bool × List Act :=
  let r := run_acli_command env (AcliCmd.vgDelete vg_name) dry_run 20 true
  (!r.1.isNone || r.1 == some "TIMEOUT" || dry_run, r.2)

/- ## The orchestrator (main) -/

/-- The run configuration parsed by argparse. verbose only changes the log
level and is omitted. pfx models args.prefix (the required name filter);
timeout models args.timeout (default 30). -/
structure Args where
  dry_run : Bool
  force : Bool
  pfx : String
  timeout : Nat
deriving DecidableEq

/-- Terminal per-volume-group result. Each constructor corresponds to
exactly one counter-increment site in main's loop: Succeeded to the
success_count increment after a successful delete, the others to the four
failure_count increments (skip without force, consumer-detach failure,
disk-detach failure, delete failure). -/
inductive Outcome where
  | Succeeded
  | SkippedConsumersAttached
  | FailedDetachConsumers
  | FailedDetachSubResources
  | FailedDelete
deriving DecidableEq

/-- Contribution of an outcome to success_count. -/
def succInc (o : Outcome) : Nat := if o = Outcome.Succeeded then 1 else 0

/-- Contribution of an outcome to failure_count. -/
def failInc (o : Outcome) : Nat := if o = Outcome.Succeeded then 0 else 1

/-- The fallback candidate list hard-coded in main's dry-run branch. -/
def simulatedVgs : List String :=
  ["EXAMPLE_VG1", "EXAMPLE_VG2", "OTHER_VG", "ANOTHER_VG"]

/-- The vg.list re-parse in main's dry-run branch (it differs from
parseVgList: it keeps any line whose split is nonempty unless the line
starts with the literal Volume Group or with a dash). -/
def parseDryVgList (out : String) : List String :=
  (pySplitlines out).filterMap (fun line =>
    if (pySplit line).isEmpty then none
    else if pyStartswith line "Volume Group" then none
    else if pyStartswith line "-" then none
    else (pySplit line).head?)

/-- main's dry-run enumeration: execute vg.list live (dry_run False,
default timeout, no confirm); if it yields nonempty output, re-parse it,
otherwise fall back to the simulated candidate list. -/
def dryRunListVgs (env : Env) : List String × List Act :=
  let r := run_acli_command env AcliCmd.vgList false 30 false
  match r.1 with
  | some out =>
    if out.isEmpty then (simulatedVgs, r.2) else (parseDryVgList out, r.2)
  | none => (simulatedVgs, r.2)

/-- The enumeration phase of main: get_volume_groups always runs first
(under dry_run it executes nothing and returns the empty list); in dry-run
mode its result is then replaced by the live re-enumeration. -/
def enumPhase (env : Env) (args : Args) : List String × List Act :=
  let g := get_volume_groups env args.dry_run
  if args.dry_run then
    let d := dryRunListVgs env
    (d.1, g.2 ++ d.2)
  else g

/-- The candidate names main iterates over: the enumerated names filtered
by startswith on the configured value. -/
def matchedVgs (env : Env) (args : Args) : List String :=
  (enumPhase env args).1.filter (fun vg => pyStartswith vg args.pfx)

/-- The attached-VM lookup in main's loop body: in dry-run mode a live
vg.get whose output, when nonempty, is scanned for the attachment type and
uuids (empty on a missing or kNone type); in live mode get_vg_vms. -/
def mainGetAttachedVms (env : Env) (args : Args) (vg_name : String) :
    List String × List Act :=
  if args.dry_run then
    let r := run_acli_command env (AcliCmd.vgGet vg_name) false 30 false
    match r.1 with
    | some out =>
      if out.isEmpty then ([], r.2)
      else
        match searchAttachmentType out with
        | some ty =>
          if ty = "kNone" then ([], r.2) else (findAllVmUuids out, r.2)
        | none => ([], r.2)
    | none => ([], r.2)
  else get_vg_vms env vg_name args.dry_run

/-- The disk lookup in main's loop body: in dry-run mode a live vg.get
whose nonempty output is scanned for index fields, with the one-disk
default list on a failed or empty read; in live mode get_vg_disks. -/
def mainGetDiskIndexes (env : Env) (args : Args) (vg_name : String) :
    List String × List Act :=
  if args.dry_run then
    let r := run_acli_command env (AcliCmd.vgGet vg_name) false 30 false
    match r.1 with
    | some out =>
      if out.isEmpty then (["0"], r.2) else (findAllIndexes out, r.2)
    | none => (["0"], r.2)
  else get_vg_disks env vg_name args.dry_run

/-- The disk-detach and delete stages of main's loop body (reached only
when the consumer gate passed): look up disks, detach them, and on
aggregate success delete the volume group. -/
def processVgTail (env : Env) (args : Args) (vg_name : String) :
    Outcome × List Act :=
  let disks := mainGetDiskIndexes env args vg_name
  let dd := detach_disks env vg_name disks.1 args.dry_run
  if dd.1 then
    let del := delete_vg env vg_name args.dry_run
    (if del.1 then Outcome.Succeeded else Outcome.FailedDelete,
     disks.2 ++ dd.2 ++ del.2)
  else (Outcome.FailedDetachSubResources, disks.2 ++ dd.2)

/-- One iteration of main's per-volume-group loop: the consumer gate
(skip when VMs are attached and force is off; detach them first when force
is on, abandoning the group if that fails), then the disk and delete
stages. -/
def processVg (env : Env) (args : Args) (vg_name : String) :
    Outcome × List Act :=
  let vms := mainGetAttachedVms env args vg_name
  if vms.1 = [] then
    let t := processVgTail env args vg_name
    (t.1, vms.2 ++ t.2)
  else if args.force then
    let dv := detach_vms env vg_name vms.1 args.dry_run
    if dv.1 then
      let t := processVgTail env args vg_name
      (t.1, vms.2 ++ dv.2 ++ t.2)
    else (Outcome.FailedDetachConsumers, vms.2 ++ dv.2)
  else (Outcome.SkippedConsumersAttached, vms.2)

/-- main's loop over the candidate list: per-candidate outcomes, counter
totals and the concatenated trace, in iteration order. -/
def processLoop (env : Env) (args : Args) :
    List String → Nat × Nat × List Outcome × List Act
  | [] => (0, 0, [], [])
  | vg :: rest =>
    let p := processVg env args vg
    let t := processLoop env args rest
    (succInc p.1 + t.1, failInc p.1 + t.2.1, p.1 :: t.2.2.1, p.2 ++ t.2.2.2)

/-- The observable final state of one run of main. -/
structure RunResult where
  success_count : Nat
  failure_count : Nat
  target_vgs : List String
  outcomes : List Outcome
  summaryEmitted : Bool
  trace : List Act
deriving DecidableEq

/-- Model of the script entry point main: enumerate, then return early (without the summary block) when
the enumeration is empty in live mode, filter by the configured value,
return early (without the summary block) when no candidate matches, else
process every candidate and emit the summary. -/
def mainRun (env : Env) (args : Args) : RunResult :=
  let e := enumPhase env args
  if e.1 = [] ∧ args.dry_run = false then
    ⟨0, 0, [], [], false, e.2⟩
  else
    let target_vgs := e.1.filter (fun vg => pyStartswith vg args.pfx)
    if target_vgs = [] then ⟨0, 0, target_vgs, [], false, e.2⟩
    else
      let l := processLoop env args target_vgs
      ⟨l.1, l.2.1, target_vgs, l.2.2.1, true, e.2 ++ l.2.2.2⟩

/- ## Basic facts about the executor model -/

/-- Whether a command result is a failure (the None return of the source;
TIMEOUT is deliberately not a failure). -/
def isFailureR : CmdResult → Bool
  | CmdResult.failure => true
  | _ => false

/-- Replace every Timeout on a mutating action by a successful empty
Output, leaving read results untouched: the substitution the
timeout-as-success policy claims to be invisible to the state machine. -/
def timeoutAsOutput (env : Env) : Env := fun a =>
  if a.cmd.isMutating then
    match env a with
    | CmdResult.timeout => CmdResult.output ""
    | r => r
  else env a

theorem run_acli_command_dry (env : Env) (cmd : AcliCmd) (t : Nat) (c : Bool) :
    run_acli_command env cmd true t c =
      (some "[DRY RUN] Command not executed", []) := rfl

theorem mem_run_acli_command_trace (env : Env) (cmd : AcliCmd) (d : Bool)
    (t : Nat) (c : Bool) {a : Act}
    (h : a ∈ (run_acli_command env cmd d t c).2) : a = ⟨cmd, t, c⟩ := by
  cases d with
  | true => simp [run_acli_command] at h
  | false =>
    simp only [run_acli_command, Bool.false_eq_true, if_false] at h
    simpa using h

theorem run_acli_command_live_isNone (env : Env) (cmd : AcliCmd) (t : Nat)
    (c : Bool) :
    (run_acli_command env cmd false t c).1.isNone =
      isFailureR (env ⟨cmd, t, c⟩) := by
  cases h : env ⟨cmd, t, c⟩ <;>
    simp [run_acli_command, isFailureR, h]

theorem run_acli_command_live_trace (env : Env) (cmd : AcliCmd) (t : Nat)
    (c : Bool) :
    (run_acli_command env cmd false t c).2 = [⟨cmd, t, c⟩] := by
  cases h : env ⟨cmd, t, c⟩ <;> simp [run_acli_command, h]

/- ## Dry-run behaviour of the mutating helpers -/

theorem detachVmsLoop_dry (env : Env) (vg : String) (l : List String) :
    detachVmsLoop env vg true l = (true, []) := by
  induction l with
  | nil => rfl
  | cons vm rest ih => simp [detachVmsLoop, run_acli_command, ih]

theorem detach_vms_dry (env : Env) (vg : String) (l : List String) :
    detach_vms env vg l true = (true, []) := by
  unfold detach_vms
  split
  · rfl
  · exact detachVmsLoop_dry env vg l

theorem detachDisksLoop_dry (env : Env) (vg : String) (l : List String) :
    detachDisksLoop env vg true l = (true, []) := by
  induction l with
  | nil => rfl
  | cons d rest ih => simp [detachDisksLoop, run_acli_command, ih]

theorem detach_disks_dry (env : Env) (vg : String) (l : List String) :
    detach_disks env vg l true = (true, []) := by
  unfold detach_disks
  split
  · rfl
  · exact detachDisksLoop_dry env vg l

theorem delete_vg_dry (env : Env) (vg : String) :
    delete_vg env vg true = (true, []) := by
  simp [delete_vg, run_acli_command]

/- ## Live characterisations of the mutating helpers -/

theorem detachVmsLoop_live (env : Env) (vg : String) (l : List String) :
    detachVmsLoop env vg false l =
      (l.all (fun vm =>
          !isFailureR (env ⟨AcliCmd.vgDetachFromVm vg vm, 20, true⟩)),
       l.map (fun vm => (⟨AcliCmd.vgDetachFromVm vg vm, 20, true⟩ : Act))) := by
  induction l with
  | nil => rfl
  | cons vm rest ih =>
    simp only [detachVmsLoop, ih, List.all_cons, List.map_cons]
    rw [Prod.mk.injEq]
    constructor
    · rw [run_acli_command_live_isNone]
      simp
    · rw [run_acli_command_live_trace]
      simp

theorem detach_vms_live (env : Env) (vg : String) (l : List String) :
    detach_vms env vg l false =
      (l.all (fun vm =>
          !isFailureR (env ⟨AcliCmd.vgDetachFromVm vg vm, 20, true⟩)),
       l.map (fun vm => (⟨AcliCmd.vgDetachFromVm vg vm, 20, true⟩ : Act))) := by
  unfold detach_vms
  split
  · rename_i h
    subst h
    rfl
  · exact detachVmsLoop_live env vg l

theorem detachDisksLoop_live (env : Env) (vg : String) (l : List String) :
    detachDisksLoop env vg false l =
      (l.all (fun d =>
          !isFailureR (env ⟨AcliCmd.vgDiskDelete vg d, 20, true⟩)),
       l.map (fun d => (⟨AcliCmd.vgDiskDelete vg d, 20, true⟩ : Act))) := by
  induction l with
  | nil => rfl
  | cons d rest ih =>
    simp only [detachDisksLoop, ih, List.all_cons, List.map_cons]
    rw [Prod.mk.injEq]
    constructor
    · rw [run_acli_command_live_isNone]
      simp
    · rw [run_acli_command_live_trace]
      simp

theorem detach_disks_live (env : Env) (vg : String) (l : List String) :
    detach_disks env vg l false =
      (l.all (fun d =>
          !isFailureR (env ⟨AcliCmd.vgDiskDelete vg d, 20, true⟩)),
       l.map (fun d => (⟨AcliCmd.vgDiskDelete vg d, 20, true⟩ : Act))) := by
  unfold detach_disks
  split
  · rename_i h
    subst h
    rfl
  · exact detachDisksLoop_live env vg l

theorem delete_vg_live (env : Env) (vg : String) :
    delete_vg env vg false =
      (!isFailureR (env ⟨AcliCmd.vgDelete vg, 20, true⟩),
       [⟨AcliCmd.vgDelete vg, 20, true⟩]) := by
  cases h : env ⟨AcliCmd.vgDelete vg, 20, true⟩ <;>
    simp [delete_vg, run_acli_command, isFailureR, h]

/- ## Trace shapes of the read helpers and of the loop body -/

theorem get_volume_groups_trace (env : Env) (d : Bool) {a : Act}
    (h : a ∈ (get_volume_groups env d).2) :
    a = ⟨AcliCmd.vgList, 30, false⟩ := by
  unfold get_volume_groups at h
  apply mem_run_acli_command_trace env AcliCmd.vgList d 30 false
  cases hr : (run_acli_command env AcliCmd.vgList d 30 false).1 <;>
    simp only [hr] at h
  · exact h
  · split at h <;> exact h

theorem get_vg_vms_trace (env : Env) (vg : String) (d : Bool) {a : Act}
    (h : a ∈ (get_vg_vms env vg d).2) :
    a = ⟨AcliCmd.vgGet vg, 30, false⟩ := by
  unfold get_vg_vms at h
  apply mem_run_acli_command_trace env (AcliCmd.vgGet vg) d 30 false
  cases hr : (run_acli_command env (AcliCmd.vgGet vg) d 30 false).1 <;>
    simp only [hr] at h
  · exact h
  · split at h
    · exact h
    · split at h <;> (try split at h) <;> exact h

theorem get_vg_disks_trace (env : Env) (vg : String) (d : Bool) {a : Act}
    (h : a ∈ (get_vg_disks env vg d).2) :
    a = ⟨AcliCmd.vgGet vg, 30, false⟩ := by
  unfold get_vg_disks at h
  apply mem_run_acli_command_trace env (AcliCmd.vgGet vg) d 30 false
  cases hr : (run_acli_command env (AcliCmd.vgGet vg) d 30 false).1 <;>
    simp only [hr] at h
  · exact h
  · split at h <;> exact h

theorem mainGetAttachedVms_trace (env : Env) (args : Args) (vg : String)
    {a : Act} (h : a ∈ (mainGetAttachedVms env args vg).2) :
    a = ⟨AcliCmd.vgGet vg, 30, false⟩ := by
  unfold mainGetAttachedVms at h
  split at h
  · apply mem_run_acli_command_trace env (AcliCmd.vgGet vg) false 30 false
    cases hr : (run_acli_command env (AcliCmd.vgGet vg) false 30 false).1 <;>
      simp only [hr] at h
    · exact h
    · split at h
      · exact h
      · split at h
        · split at h <;> exact h
        · exact h
  · exact get_vg_vms_trace env vg args.dry_run h

theorem mainGetDiskIndexes_trace (env : Env) (args : Args) (vg : String)
    {a : Act} (h : a ∈ (mainGetDiskIndexes env args vg).2) :
    a = ⟨AcliCmd.vgGet vg, 30, false⟩ := by
  unfold mainGetDiskIndexes at h
  split at h
  · apply mem_run_acli_command_trace env (AcliCmd.vgGet vg) false 30 false
    cases hr : (run_acli_command env (AcliCmd.vgGet vg) false 30 false).1 <;>
      simp only [hr] at h
    · exact h
    · split at h <;> exact h
  · exact get_vg_disks_trace env vg args.dry_run h

theorem detach_vms_trace (env : Env) (vg : String) (l : List String)
    (d : Bool) {a : Act} (h : a ∈ (detach_vms env vg l d).2) :
    ∃ vm, a = ⟨AcliCmd.vgDetachFromVm vg vm, 20, true⟩ := by
  cases d with
  | true => rw [detach_vms_dry] at h; simp at h
  | false =>
    rw [detach_vms_live] at h
    simp only [List.mem_map] at h
    obtain ⟨vm, _, hvm⟩ := h
    exact ⟨vm, hvm.symm⟩

theorem detach_disks_trace (env : Env) (vg : String) (l : List String)
    (d : Bool) {a : Act} (h : a ∈ (detach_disks env vg l d).2) :
    ∃ dk, a = ⟨AcliCmd.vgDiskDelete vg dk, 20, true⟩ := by
  cases d with
  | true => rw [detach_disks_dry] at h; simp at h
  | false =>
    rw [detach_disks_live] at h
    simp only [List.mem_map] at h
    obtain ⟨dk, _, hdk⟩ := h
    exact ⟨dk, hdk.symm⟩

theorem delete_vg_trace (env : Env) (vg : String) (d : Bool) {a : Act}
    (h : a ∈ (delete_vg env vg d).2) :
    a = ⟨AcliCmd.vgDelete vg, 20, true⟩ := by
  cases d with
  | true => rw [delete_vg_dry] at h; simp at h
  | false => rw [delete_vg_live] at h; simpa using h

/-- Every action the tail stages (disk lookup, disk detach, delete) execute
addresses the volume group they were called for, and under dry_run only
the read-only vg.get is ever executed. -/
theorem processVgTail_trace_shape (env : Env) (args : Args) (vg : String)
    {a : Act} (ht : a ∈ (processVgTail env args vg).2) :
    a.cmd.targets = some vg ∧
      (args.dry_run = true → a.cmd = AcliCmd.vgGet vg) := by
  simp only [processVgTail] at ht
  split at ht <;> simp only [List.mem_append] at ht
  · rcases ht with (ht | ht) | ht
    · rw [mainGetDiskIndexes_trace env args vg ht]
      exact ⟨rfl, fun _ => rfl⟩
    · obtain ⟨dk, hdk⟩ := detach_disks_trace env vg _ args.dry_run ht
      subst hdk
      refine ⟨rfl, fun hd => ?_⟩
      rw [hd, detach_disks_dry] at ht
      simp at ht
    · have he := delete_vg_trace env vg args.dry_run ht
      subst he
      refine ⟨rfl, fun hd => ?_⟩
      rw [hd, delete_vg_dry] at ht
      simp at ht
  · rcases ht with ht | ht
    · rw [mainGetDiskIndexes_trace env args vg ht]
      exact ⟨rfl, fun _ => rfl⟩
    · obtain ⟨dk, hdk⟩ := detach_disks_trace env vg _ args.dry_run ht
      subst hdk
      refine ⟨rfl, fun hd => ?_⟩
      rw [hd, detach_disks_dry] at ht
      simp at ht

/-- Every action the loop body executes addresses the volume group it was
called for, and under dry_run it can only be the read-only vg.get. -/
theorem processVg_trace_shape (env : Env) (args : Args) (vg : String)
    {a : Act} (h : a ∈ (processVg env args vg).2) :
    a.cmd.targets = some vg ∧
      (args.dry_run = true → a.cmd = AcliCmd.vgGet vg) := by
  simp only [processVg] at h
  split at h
  · simp only [List.mem_append] at h
    rcases h with h | h
    · rw [mainGetAttachedVms_trace env args vg h]
      exact ⟨rfl, fun _ => rfl⟩
    · exact processVgTail_trace_shape env args vg h
  · split at h
    · split at h <;> simp only [List.mem_append] at h
      · rcases h with (h | h) | h
        · rw [mainGetAttachedVms_trace env args vg h]
          exact ⟨rfl, fun _ => rfl⟩
        · obtain ⟨vm, hvm⟩ := detach_vms_trace env vg _ args.dry_run h
          subst hvm
          refine ⟨rfl, fun hd => ?_⟩
          rw [hd, detach_vms_dry] at h
          simp at h
        · exact processVgTail_trace_shape env args vg h
      · rcases h with h | h
        · rw [mainGetAttachedVms_trace env args vg h]
          exact ⟨rfl, fun _ => rfl⟩
        · obtain ⟨vm, hvm⟩ := detach_vms_trace env vg _ args.dry_run h
          subst hvm
          refine ⟨rfl, fun hd => ?_⟩
          rw [hd, detach_vms_dry] at h
          simp at h
    · rw [mainGetAttachedVms_trace env args vg h]
      exact ⟨rfl, fun _ => rfl⟩

/- ## Decomposition of the orchestrator's trace and counters -/

theorem dryRunListVgs_trace (env : Env) {a : Act}
    (h : a ∈ (dryRunListVgs env).2) : a = ⟨AcliCmd.vgList, 30, false⟩ := by
  simp only [dryRunListVgs] at h
  apply mem_run_acli_command_trace env AcliCmd.vgList false 30 false
  cases hr : (run_acli_command env AcliCmd.vgList false 30 false).1 <;>
    simp only [hr] at h
  · exact h
  · split at h <;> exact h

theorem enumPhase_trace (env : Env) (args : Args) {a : Act}
    (h : a ∈ (enumPhase env args).2) : a = ⟨AcliCmd.vgList, 30, false⟩ := by
  simp only [enumPhase] at h
  split at h
  · simp only [List.mem_append] at h
    rcases h with h | h
    · exact get_volume_groups_trace env args.dry_run h
    · exact dryRunListVgs_trace env h
  · exact get_volume_groups_trace env args.dry_run h

theorem processLoop_trace (env : Env) (args : Args) (l : List String)
    {a : Act} (h : a ∈ (processLoop env args l).2.2.2) :
    ∃ vg ∈ l, a ∈ (processVg env args vg).2 := by
  induction l with
  | nil => simp [processLoop] at h
  | cons vg rest ih =>
    simp only [processLoop, List.mem_append] at h
    rcases h with h | h
    · exact ⟨vg, List.mem_cons_self vg rest, h⟩
    · obtain ⟨vg2, hm, hv⟩ := ih h
      exact ⟨vg2, List.mem_cons_of_mem vg hm, hv⟩

/-- Every action mainRun executes is either the enumeration's vg.list or an
action of the loop body for some candidate that passed the name filter
(and that candidate is one of the enumerated names). -/
theorem mainRun_trace_shape (env : Env) (args : Args) {a : Act}
    (h : a ∈ (mainRun env args).trace) :
    a = ⟨AcliCmd.vgList, 30, false⟩ ∨
      ∃ vg, vg ∈ (enumPhase env args).1 ∧ pyStartswith vg args.pfx = true ∧
        a ∈ (processVg env args vg).2 := by
  simp only [mainRun] at h
  split at h
  · exact Or.inl (enumPhase_trace env args h)
  · split at h
    · exact Or.inl (enumPhase_trace env args h)
    · simp only [List.mem_append] at h
      rcases h with h | h
      · exact Or.inl (enumPhase_trace env args h)
      · obtain ⟨vg, hm, hv⟩ := processLoop_trace env args _ h
        rw [List.mem_filter] at hm
        exact Or.inr ⟨vg, hm.1, hm.2, hv⟩

theorem processLoop_outcomes (env : Env) (args : Args) (l : List String) :
    (processLoop env args l).2.2.1 =
      l.map (fun vg => (processVg env args vg).1) := by
  induction l with
  | nil => rfl
  | cons vg rest ih => simp [processLoop, ih]

theorem processLoop_success_count (env : Env) (args : Args)
    (l : List String) :
    (processLoop env args l).1 =
      ((processLoop env args l).2.2.1.filter
        (fun o => o == Outcome.Succeeded)).length := by
  induction l with
  | nil => rfl
  | cons vg rest ih =>
    simp only [processLoop, List.filter_cons]
    by_cases h : (processVg env args vg).1 = Outcome.Succeeded <;>
      simp [succInc, h, ih] <;> omega

theorem processLoop_failure_count (env : Env) (args : Args)
    (l : List String) :
    (processLoop env args l).2.1 =
      ((processLoop env args l).2.2.1.filter
        (fun o => o != Outcome.Succeeded)).length := by
  induction l with
  | nil => rfl
  | cons vg rest ih =>
    simp only [processLoop, List.filter_cons]
    by_cases h : (processVg env args vg).1 = Outcome.Succeeded <;>
      simp [failInc, h, ih] <;> omega

theorem processLoop_count_sum (env : Env) (args : Args) (l : List String) :
    (processLoop env args l).1 + (processLoop env args l).2.1 = l.length := by
  induction l with
  | nil => rfl
  | cons vg rest ih =>
    simp only [processLoop, List.length_cons]
    by_cases h : (processVg env args vg).1 = Outcome.Succeeded <;>
      simp [succInc, failInc, h] <;> omega

/- ## Invariance of the state machine under timeout-to-output substitution -/

theorem timeoutAsOutput_nonmut (env : Env) (a : Act)
    (h : a.cmd.isMutating = false) : timeoutAsOutput env a = env a := by
  simp [timeoutAsOutput, h]

theorem isFailureR_timeoutAsOutput (env : Env) (a : Act) :
    isFailureR (timeoutAsOutput env a) = isFailureR (env a) := by
  unfold timeoutAsOutput
  cases h : a.cmd.isMutating
  · simp
  · simp only [if_true]
    cases env a <;> rfl

theorem run_timeoutAsOutput_read (env : Env) (cmd : AcliCmd) (d : Bool)
    (t : Nat) (c : Bool) (h : cmd.isMutating = false) :
    run_acli_command (timeoutAsOutput env) cmd d t c =
      run_acli_command env cmd d t c := by
  simp only [run_acli_command]
  rw [timeoutAsOutput_nonmut env ⟨cmd, t, c⟩ h]

theorem get_vg_vms_timeoutAsOutput (env : Env) (vg : String) (d : Bool) :
    get_vg_vms (timeoutAsOutput env) vg d = get_vg_vms env vg d := by
  simp only [get_vg_vms]
  rw [run_timeoutAsOutput_read env (AcliCmd.vgGet vg) d 30 false rfl]

theorem get_vg_disks_timeoutAsOutput (env : Env) (vg : String) (d : Bool) :
    get_vg_disks (timeoutAsOutput env) vg d = get_vg_disks env vg d := by
  simp only [get_vg_disks]
  rw [run_timeoutAsOutput_read env (AcliCmd.vgGet vg) d 30 false rfl]

theorem mainGetAttachedVms_timeoutAsOutput (env : Env) (args : Args)
    (vg : String) :
    mainGetAttachedVms (timeoutAsOutput env) args vg =
      mainGetAttachedVms env args vg := by
  simp only [mainGetAttachedVms]
  rw [run_timeoutAsOutput_read env (AcliCmd.vgGet vg) false 30 false rfl,
    get_vg_vms_timeoutAsOutput]

theorem mainGetDiskIndexes_timeoutAsOutput (env : Env) (args : Args)
    (vg : String) :
    mainGetDiskIndexes (timeoutAsOutput env) args vg =
      mainGetDiskIndexes env args vg := by
  simp only [mainGetDiskIndexes]
  rw [run_timeoutAsOutput_read env (AcliCmd.vgGet vg) false 30 false rfl,
    get_vg_disks_timeoutAsOutput]

theorem detachVmsLoop_timeoutAsOutput (env : Env) (vg : String) (d : Bool)
    (l : List String) :
    detachVmsLoop (timeoutAsOutput env) vg d l = detachVmsLoop env vg d l := by
  cases d
  · rw [detachVmsLoop_live, detachVmsLoop_live]
    simp [isFailureR_timeoutAsOutput]
  · rw [detachVmsLoop_dry, detachVmsLoop_dry]

theorem detach_vms_timeoutAsOutput (env : Env) (vg : String)
    (l : List String) (d : Bool) :
    detach_vms (timeoutAsOutput env) vg l d = detach_vms env vg l d := by
  simp only [detach_vms, detachVmsLoop_timeoutAsOutput]

theorem detachDisksLoop_timeoutAsOutput (env : Env) (vg : String) (d : Bool)
    (l : List String) :
    detachDisksLoop (timeoutAsOutput env) vg d l =
      detachDisksLoop env vg d l := by
  cases d
  · rw [detachDisksLoop_live, detachDisksLoop_live]
    simp [isFailureR_timeoutAsOutput]
  · rw [detachDisksLoop_dry, detachDisksLoop_dry]

theorem detach_disks_timeoutAsOutput (env : Env) (vg : String)
    (l : List String) (d : Bool) :
    detach_disks (timeoutAsOutput env) vg l d = detach_disks env vg l d := by
  simp only [detach_disks, detachDisksLoop_timeoutAsOutput]

theorem delete_vg_timeoutAsOutput (env : Env) (vg : String) (d : Bool) :
    delete_vg (timeoutAsOutput env) vg d = delete_vg env vg d := by
  cases d
  · rw [delete_vg_live, delete_vg_live, isFailureR_timeoutAsOutput]
  · rw [delete_vg_dry, delete_vg_dry]

theorem processVgTail_timeoutAsOutput (env : Env) (args : Args)
    (vg : String) :
    processVgTail (timeoutAsOutput env) args vg = processVgTail env args vg := by
  simp only [processVgTail, mainGetDiskIndexes_timeoutAsOutput,
    detach_disks_timeoutAsOutput, delete_vg_timeoutAsOutput]

theorem processVg_timeoutAsOutput (env : Env) (args : Args) (vg : String) :
    processVg (timeoutAsOutput env) args vg = processVg env args vg := by
  simp only [processVg, mainGetAttachedVms_timeoutAsOutput,
    detach_vms_timeoutAsOutput, processVgTail_timeoutAsOutput]

/- ## The substring machinery behind the header-line filter -/

theorem listIsPrefixOf_iff (l t : List Char) :
    listIsPrefixOf l t = true ↔ l <+: t := by
  induction l generalizing t with
  | nil => simp [listIsPrefixOf]
  | cons a as ih =>
    cases t with
    | nil => simp [listIsPrefixOf]
    | cons b bs => simp [listIsPrefixOf, ih, List.cons_prefix_cons]

theorem listContainsSub_iff (pat l : List Char) :
    listContainsSub pat l = true ↔ pat <:+: l := by
  induction l with
  | nil => simp [listContainsSub, listIsPrefixOf_iff]
  | cons c cs ih =>
    simp [listContainsSub, listIsPrefixOf_iff, ih, List.infix_cons_iff]

theorem mem_pySplitCharsAux_piece (fuel : Nat) (cs : List Char)
    {w : List Char} (h : w ∈ pySplitCharsAux fuel cs) : w <:+: cs := by
  induction fuel generalizing cs with
  | zero =>
    cases cs with
    | nil => simp [pySplitCharsAux] at h
    | cons c cs2 =>
      simp [pySplitCharsAux] at h
      subst h
      exact List.infix_rfl
  | succ n ih =>
    cases cs with
    | nil => simp [pySplitCharsAux] at h
    | cons c cs2 =>
      simp only [pySplitCharsAux] at h
      split at h
      · exact List.infix_cons (ih cs2 h)
      · rcases List.mem_cons.mp h with h1 | h2
        · subst h1
          exact (List.cons_prefix_cons.mpr
            ⟨rfl, List.takeWhile_prefix _⟩).isInfix
        · exact List.infix_cons
            ((ih _ h2).trans (List.dropWhile_suffix _).isInfix)

theorem mem_pySplit_piece {s line : String} (h : s ∈ pySplit line) :
    s.toList <:+: line.toList := by
  simp only [pySplit, List.mem_map] at h
  obtain ⟨w, hw, hmk⟩ := h
  subst hmk
  exact mem_pySplitCharsAux_piece _ _ hw

/-- A name containing the substring Name can only sit on a line containing
it, and the header filter drops every such line, so the parser never
returns it. -/
theorem parseVgList_no_name (out name : String)
    (hname : strContains name "Name" = true) :
    name ∉ parseVgList out := by
  intro hmem
  simp only [parseVgList, List.mem_filterMap, List.mem_filter] at hmem
  obtain ⟨line, ⟨hline, hskip⟩, hhead⟩ := hmem
  have hm : name ∈ pySplit line := by
    cases hp : pySplit line with
    | nil => rw [hp] at hhead; simp at hhead
    | cons x xs =>
      rw [hp] at hhead
      simp only [List.head?_cons, Option.some.injEq] at hhead
      rw [← hhead]
      exact List.mem_cons_self x xs
  have hinf : ("Name".toList : List Char) <:+: line.toList :=
    ((listContainsSub_iff _ _).mp hname).trans (mem_pySplit_piece hm)
  have hcontains : strContains line "Name" = true :=
    (listContainsSub_iff _ _).mpr hinf
  simp [lineSkipped, hcontains] at hskip

/- ## Entry to the live enumeration -/

theorem get_volume_groups_live_output (env : Env) (out : String)
    (henv : env ⟨AcliCmd.vgList, 30, false⟩ = CmdResult.output out) :
    get_volume_groups env false =
      (parseVgList out, [⟨AcliCmd.vgList, 30, false⟩]) := by
  simp [get_volume_groups, run_acli_command, henv]

theorem enumPhase_live (env : Env) (args : Args)
    (hd : args.dry_run = false) :
    enumPhase env args = get_volume_groups env false := by
  simp [enumPhase, hd]

/- ## Concrete environments used to instantiate the results -/

/-- A control plane on which every command fails. -/
def envAllFail : Env := fun _ => CmdResult.failure

/-- A describe output with two attachment records, for VMs c1 and c2. -/
def describeTwoVms : String :=
  "attachment_list " ++ String.mk [obr] ++ " vm_uuid: \"c1\" " ++
    String.mk [cbr] ++ " attachment_list " ++ String.mk [obr] ++
    " vm_uuid: \"c2\" " ++ String.mk [cbr]

/-- A control plane with one volume group VG1 carrying consumers c1 and c2,
on which detaching c1 fails and every other command succeeds. -/
def envTwoVms : Env := fun a =>
  if a = ⟨AcliCmd.vgList, 30, false⟩ then CmdResult.output "VG1"
  else if a = ⟨AcliCmd.vgGet "VG1", 30, false⟩ then
    CmdResult.output describeTwoVms
  else if a = ⟨AcliCmd.vgDetachFromVm "VG1" "c1", 20, true⟩ then
    CmdResult.failure
  else CmdResult.output ""

/-- A control plane where describing VG1 reports consumers c1 and c2 and
everything else succeeds. -/
def envVmsAttached : Env := fun a =>
  if a = ⟨AcliCmd.vgGet "VG1", 30, false⟩ then CmdResult.output describeTwoVms
  else CmdResult.output ""

/-- A control plane listing one matching and one non-matching name. -/
def envListTestOther : Env := fun a =>
  if a = ⟨AcliCmd.vgList, 30, false⟩ then
    CmdResult.output "TEST-a x\nOTHER y"
  else CmdResult.output ""

/-- A control plane listing a group whose name contains the substring Name
next to an ordinary one. -/
def envListNameVg : Env := fun a =>
  if a = ⟨AcliCmd.vgList, 30, false⟩ then
    CmdResult.output "TEST-NameVG x\nTEST-b y"
  else CmdResult.output ""

/-- Live run, force on, matching VG1. -/
def argsForce : Args := ⟨false, true, "VG", 30⟩

/-- Live run, force off, matching VG1. -/
def argsNoForce : Args := ⟨false, false, "VG", 30⟩

/-- Dry run matching the simulated fallback names. -/
def argsDry : Args := ⟨true, true, "EXAMPLE", 30⟩

/-- Live run with the timeout flag set to 60 seconds. -/
def argsTimeout60 : Args := ⟨false, false, "T", 60⟩

/-- Live run targeting the TEST- name space. -/
def argsTestLive : Args := ⟨false, false, "TEST-", 30⟩

/- ## The claims -/

/-- Claim C1: when the run is configured with dry_run set, every mutating
action (consumer detach, sub-resource detach, volume-group delete) is
suppressed: no detach or delete command is ever executed against the
control plane; only the read-only vg.list and vg.get commands appear in
the executed trace. -/
theorem C1_dry_run_never_mutates (env : Env) (args : Args)
    (hd : args.dry_run = true) :
    ∀ a ∈ (mainRun env args).trace, a.cmd.isMutating = false := by
  intro a ha
  rcases mainRun_trace_shape env args ha with heq | ⟨vg, _, _, hv⟩
  · rw [heq]
    rfl
  · rw [(processVg_trace_shape env args vg hv).2 hd]
    rfl

/-- Witness for C1 at a concrete dry run whose live reads all fail. -/
theorem C1_dry_run_never_mutates_witness :
    argsDry.dry_run = true ∧
      ∀ a ∈ (mainRun envAllFail argsDry).trace, a.cmd.isMutating = false :=
  ⟨rfl, C1_dry_run_never_mutates envAllFail argsDry rfl⟩

/-- Claim C2 counterexample: under force, with consumers [c1, c2] and a
failing detach of c1, the detach of c2 is still attempted (it appears in
the executed trace), contradicting the claim that a failure prevents every
subsequent consumer detach; the volume-group outcome is nevertheless
FailedDetachConsumers. -/
theorem C2_counterexample :
    (mainRun envTwoVms argsForce).outcomes =
        [Outcome.FailedDetachConsumers] ∧
      (⟨AcliCmd.vgDetachFromVm "VG1" "c2", 20, true⟩ : Act) ∈
        (mainRun envTwoVms argsForce).trace := by
  refine ⟨by decide, by decide⟩

/-- Claim C2 as amended: under force, a Failure on the detach of any
consumer marks the volume group FailedDetachConsumers (counted as a
failure) and prevents every sub-resource detach and delete action for that
group, and the detach actions are issued exactly in list order; however the
loop does not stop early, so every consumer in the list is attempted, the
failing one included. -/
theorem C2_failure_blocks_later_stages (env : Env) (args : Args)
    (vg : String) (hd : args.dry_run = false) (hf : args.force = true)
    (hne : (mainGetAttachedVms env args vg).1 ≠ [])
    (hfail : ∃ vm ∈ (mainGetAttachedVms env args vg).1,
      env ⟨AcliCmd.vgDetachFromVm vg vm, 20, true⟩ = CmdResult.failure) :
    (processVg env args vg).1 = Outcome.FailedDetachConsumers ∧
    failInc (processVg env args vg).1 = 1 ∧
    (processVg env args vg).2 = (mainGetAttachedVms env args vg).2 ++
      (mainGetAttachedVms env args vg).1.map
        (fun vm => (⟨AcliCmd.vgDetachFromVm vg vm, 20, true⟩ : Act)) ∧
    ∀ a ∈ (processVg env args vg).2, a.cmd.isSubOrDelete = false := by
  obtain ⟨vm0, hvm0, hfl0⟩ := hfail
  have hall : ((mainGetAttachedVms env args vg).1.all
      (fun vm =>
        !isFailureR (env ⟨AcliCmd.vgDetachFromVm vg vm, 20, true⟩))) =
      false := by
    rw [List.all_eq_false]
    exact ⟨vm0, hvm0, by simp [hfl0, isFailureR]⟩
  have hdv : detach_vms env vg (mainGetAttachedVms env args vg).1 false =
      (false, (mainGetAttachedVms env args vg).1.map
        (fun vm => (⟨AcliCmd.vgDetachFromVm vg vm, 20, true⟩ : Act))) := by
    rw [detach_vms_live, hall]
  have hp : processVg env args vg = (Outcome.FailedDetachConsumers,
      (mainGetAttachedVms env args vg).2 ++
        (mainGetAttachedVms env args vg).1.map
          (fun vm => (⟨AcliCmd.vgDetachFromVm vg vm, 20, true⟩ : Act))) := by
    simp only [processVg, hd, hf, hdv, if_neg hne]
    simp
  refine ⟨by rw [hp], by rw [hp]; rfl, by rw [hp], ?_⟩
  intro a ha
  rw [hp] at ha
  simp only [List.mem_append, List.mem_map] at ha
  rcases ha with ha | ⟨vm, _, hvm⟩
  · rw [mainGetAttachedVms_trace env args vg ha]
    rfl
  · rw [← hvm]
    rfl

/-- Witness for the amended C2 on the concrete two-consumer control
plane. -/
theorem C2_failure_blocks_later_stages_witness :
    (mainGetAttachedVms envTwoVms argsForce "VG1").1 ≠ [] ∧
      (processVg envTwoVms argsForce "VG1").1 =
        Outcome.FailedDetachConsumers :=
  ⟨by decide,
    (C2_failure_blocks_later_stages envTwoVms argsForce "VG1" rfl rfl
      (by decide) ⟨"c1", by decide, by decide⟩).1⟩

/-- Claim C3: whenever the extracted consumer list of a volume group is
non-empty and force is off, the group's outcome is
SkippedConsumersAttached, counted as a failure and not as a success,
processing stops at the consumer gate (the group's trace is exactly the
describe read), and no mutating action is executed for it. -/
theorem C3_skip_when_consumers_without_force (env : Env) (args : Args)
    (vg : String) (hf : args.force = false)
    (hne : (mainGetAttachedVms env args vg).1 ≠ []) :
    (processVg env args vg).1 = Outcome.SkippedConsumersAttached ∧
    failInc (processVg env args vg).1 = 1 ∧
    succInc (processVg env args vg).1 = 0 ∧
    (processVg env args vg).2 = (mainGetAttachedVms env args vg).2 ∧
    ∀ a ∈ (processVg env args vg).2, a.cmd.isMutating = false := by
  have hp : processVg env args vg =
      (Outcome.SkippedConsumersAttached,
        (mainGetAttachedVms env args vg).2) := by
    simp only [processVg, if_neg hne, hf]
    simp
  refine ⟨by rw [hp], by rw [hp]; rfl, by rw [hp]; rfl, by rw [hp], ?_⟩
  intro a ha
  rw [hp] at ha
  rw [mainGetAttachedVms_trace env args vg ha]
  rfl

/-- Witness for C3 on a control plane reporting consumers c1 and c2. -/
theorem C3_skip_when_consumers_without_force_witness :
    argsNoForce.force = false ∧
      (mainGetAttachedVms envVmsAttached argsNoForce "VG1").1 ≠ [] ∧
      (processVg envVmsAttached argsNoForce "VG1").1 =
        Outcome.SkippedConsumersAttached :=
  ⟨rfl, by decide,
    (C3_skip_when_consumers_without_force envVmsAttached argsNoForce "VG1"
      rfl (by decide)).1⟩

/-- Claim C4: a name that does not start with the configured value is never
the target of any executed describe, detach or delete action: only
matching names enter the per-resource state machine. -/
theorem C4_nonmatching_never_targeted (env : Env) (args : Args)
    (n : String) (h : pyStartswith n args.pfx = false) :
    ∀ a ∈ (mainRun env args).trace, a.cmd.targets ≠ some n := by
  intro a ha
  rcases mainRun_trace_shape env args ha with heq | ⟨vg, _, hpf, hv⟩
  · rw [heq]
    simp [AcliCmd.targets]
  · rw [(processVg_trace_shape env args vg hv).1]
    intro hc
    have hvn : vg = n := by simpa using hc
    rw [hvn, h] at hpf
    exact Bool.false_ne_true hpf

/-- Witness for C4: the enumerated name OTHER does not match TEST- and is
never targeted. -/
theorem C4_nonmatching_never_targeted_witness :
    pyStartswith "OTHER" argsTestLive.pfx = false ∧
      ∀ a ∈ (mainRun envListTestOther argsTestLive).trace,
        a.cmd.targets ≠ some "OTHER" :=
  ⟨by decide,
    C4_nonmatching_never_targeted envListTestOther argsTestLive "OTHER"
      (by decide)⟩

/-- Claim C5: a Timeout on a detach or delete action is treated exactly
like a successful Output for state advancement: replacing every Timeout of
a mutating action by a successful Output changes neither the outcome nor
the executed actions of the per-group state machine; each detach stage's
aggregate success flag is false only on a genuine Failure (so it stays true
across Timeouts and the loop proceeds); and the delete succeeds (outcome
Succeeded) unless the delete command genuinely fails, in particular a
timed-out delete reports success. -/
theorem C5_timeout_treated_as_output (env : Env) (args : Args)
    (vg : String) (us ds : List String) :
    processVg (timeoutAsOutput env) args vg = processVg env args vg ∧
    (detach_vms env vg us false).1 = us.all (fun vm =>
      !isFailureR (env ⟨AcliCmd.vgDetachFromVm vg vm, 20, true⟩)) ∧
    (detach_disks env vg ds false).1 = ds.all (fun d =>
      !isFailureR (env ⟨AcliCmd.vgDiskDelete vg d, 20, true⟩)) ∧
    (delete_vg env vg false).1 =
      !isFailureR (env ⟨AcliCmd.vgDelete vg, 20, true⟩) ∧
    (delete_vg (fun a =>
      if a = ⟨AcliCmd.vgDelete vg, 20, true⟩ then CmdResult.timeout
      else env a) vg false).1 = true := by
  refine ⟨processVg_timeoutAsOutput env args vg, by rw [detach_vms_live],
    by rw [detach_disks_live], by rw [delete_vg_live], ?_⟩
  rw [delete_vg_live]
  simp [isFailureR]

/-- Claim C6: when the describe (vg.get) of a volume group fails, both
extraction helpers fail open to empty lists, so the consumer gate advances,
the disk-detach stage succeeds vacuously, the delete is still attempted
(the vg.delete action appears in the trace), and the group's outcome is
Succeeded unless that delete itself genuinely fails. -/
theorem C6_describe_failure_fails_open (env : Env) (args : Args)
    (vg : String) (hd : args.dry_run = false)
    (hfail : env ⟨AcliCmd.vgGet vg, 30, false⟩ = CmdResult.failure) :
    (get_vg_vms env vg false).1 = [] ∧
    (get_vg_disks env vg false).1 = [] ∧
    (⟨AcliCmd.vgDelete vg, 20, true⟩ : Act) ∈ (processVg env args vg).2 ∧
    (processVg env args vg).1 =
      (if isFailureR (env ⟨AcliCmd.vgDelete vg, 20, true⟩) then
        Outcome.FailedDelete else Outcome.Succeeded) := by
  have hvms : get_vg_vms env vg false =
      ([], [⟨AcliCmd.vgGet vg, 30, false⟩]) := by
    simp [get_vg_vms, run_acli_command, hfail]
  have hdisks : get_vg_disks env vg false =
      ([], [⟨AcliCmd.vgGet vg, 30, false⟩]) := by
    simp [get_vg_disks, run_acli_command, hfail]
  have hma : mainGetAttachedVms env args vg =
      ([], [⟨AcliCmd.vgGet vg, 30, false⟩]) := by
    simp [mainGetAttachedVms, hd, hvms]
  have hmd : mainGetDiskIndexes env args vg =
      ([], [⟨AcliCmd.vgGet vg, 30, false⟩]) := by
    simp [mainGetDiskIndexes, hd, hdisks]
  refine ⟨by rw [hvms], by rw [hdisks], ?_, ?_⟩
  · simp only [processVg, processVgTail, hma, hmd, hd, detach_disks,
      delete_vg_live]
    simp
  · simp only [processVg, processVgTail, hma, hmd, hd, detach_disks,
      delete_vg_live]
    cases hdel : isFailureR (env ⟨AcliCmd.vgDelete vg, 20, true⟩) <;>
      simp [hdel]

/-- Witness for C6 on the all-failing control plane: the delete also fails
there, so the outcome is FailedDelete, matching the fail-open shape. -/
theorem C6_describe_failure_fails_open_witness :
    envAllFail ⟨AcliCmd.vgGet "T1", 30, false⟩ = CmdResult.failure ∧
      (processVg envAllFail argsTestLive "T1").1 =
        (if isFailureR (envAllFail ⟨AcliCmd.vgDelete "T1", 20, true⟩) then
          Outcome.FailedDelete else Outcome.Succeeded) :=
  ⟨rfl,
    (C6_describe_failure_fails_open envAllFail argsTestLive "T1" rfl
      rfl).2.2.2⟩

/-- Claim C7: each candidate volume group contributes exactly one terminal
outcome, success_count counts exactly the Succeeded outcomes, failure_count
counts exactly the others, and at the summary the two counters add up to
the number of candidates that matched the configured value. -/
theorem C7_counters_partition_candidates (env : Env) (args : Args) :
    (mainRun env args).outcomes =
      (mainRun env args).target_vgs.map
        (fun vg => (processVg env args vg).1) ∧
    (mainRun env args).success_count =
      ((mainRun env args).outcomes.filter
        (fun o => o == Outcome.Succeeded)).length ∧
    (mainRun env args).failure_count =
      ((mainRun env args).outcomes.filter
        (fun o => o != Outcome.Succeeded)).length ∧
    (mainRun env args).success_count + (mainRun env args).failure_count =
      (mainRun env args).target_vgs.length := by
  simp only [mainRun]
  split
  · simp
  · split
    · rename_i h2
      simp [h2]
    · refine ⟨processLoop_outcomes env args _,
        processLoop_success_count env args _,
        processLoop_failure_count env args _, ?_⟩
      rw [processLoop_count_sum]

/-- Claim C8 counterexample: on a control plane whose enumeration fails, a
live run ends with zero matched candidates and no emitted summary,
contradicting the claim that the summary is always emitted. -/
theorem C8_counterexample_no_summary :
    (mainRun envAllFail argsTestLive).summaryEmitted = false ∧
      matchedVgs envAllFail argsTestLive = [] := by
  refine ⟨by decide, by decide⟩

/-- Claim C8 as amended: the final summary is emitted exactly when at least
one enumerated volume group matches the configured value; with zero
enumerated groups in live mode, or zero matching candidates, the run
returns early (cleanly, after an informational message) without emitting
the summary. -/
theorem C8_summary_iff_candidates (env : Env) (args : Args) :
    (mainRun env args).summaryEmitted = true ↔ matchedVgs env args ≠ [] := by
  simp only [mainRun, matchedVgs]
  split
  · rename_i h
    simp [h.1]
  · split
    · rename_i h2
      simp [h2]
    · rename_i h2
      simp [h2]

/-- Claim C9, the code against the documented flag: with the timeout flag
set to 60, the list command is still executed with the hard-coded default
timeout of 30 seconds; the parsed flag value is never passed to any
command. -/
theorem C9_timeout_flag_ignored :
    argsTimeout60.timeout = 60 ∧
    (mainRun envAllFail argsTimeout60).trace =
      [⟨AcliCmd.vgList, 30, false⟩] ∧
    ∀ a ∈ (mainRun envAllFail argsTimeout60).trace,
      a.tmo ≠ argsTimeout60.timeout := by
  refine ⟨rfl, by decide, by decide⟩

/-- Claim C10: the enumerator drops every list-output line that is blank,
starts with a dash, or contains the substring Name anywhere; consequently a
volume group whose name contains Name is never enumerated and no executed
action of the whole run ever targets it, its matching the configured value
notwithstanding. -/
theorem C10_name_lines_never_enumerated (env : Env) (args : Args)
    (out name : String) (hd : args.dry_run = false)
    (henv : env ⟨AcliCmd.vgList, 30, false⟩ = CmdResult.output out)
    (hname : strContains name "Name" = true) :
    name ∉ (get_volume_groups env false).1 ∧
    ∀ a ∈ (mainRun env args).trace, a.cmd.targets ≠ some name := by
  have hnm : name ∉ (get_volume_groups env false).1 := by
    rw [get_volume_groups_live_output env out henv]
    exact parseVgList_no_name out name hname
  refine ⟨hnm, ?_⟩
  intro a ha
  rcases mainRun_trace_shape env args ha with heq | ⟨vg, hin, _, hv⟩
  · rw [heq]
    simp [AcliCmd.targets]
  · rw [(processVg_trace_shape env args vg hv).1]
    intro hc
    have hvn : vg = name := by simpa using hc
    rw [enumPhase_live env args hd] at hin
    rw [hvn] at hin
    exact hnm hin

/-- Witness for C10 on a listing that contains a group named
TEST-NameVG. -/
theorem C10_name_lines_never_enumerated_witness :
    strContains "TEST-NameVG" "Name" = true ∧
      "TEST-NameVG" ∉ (get_volume_groups envListNameVg false).1 :=
  ⟨by decide,
    (C10_name_lines_never_enumerated envListNameVg argsTestLive
      "TEST-NameVG x\nTEST-b y" "TEST-NameVG" rfl (by decide)
      (by decide)).1⟩
